import Mathlib

/-!
Shallow embedding of the ngnfs client-side block cache and transaction
layer (src/shared/block.c and src/shared/txn.c) and proofs about it.

The C functions are translated into pure Lean functions over an explicit
state record `CacheState` that mirrors `struct ngnfs_block_info` together
with the hash-indexed blocks (`struct ngnfs_block`) and dirty sets
(`struct ngnfs_block_set`).  Pointer-linked structures become association
lists keyed by block number or set id; state bits become booleans;
atomic counters become plain numeric fields (the embedding is a
sequential interleaving model, so each atomic read-modify-write is one
pure update).  The wait_event macro of shared/lk/wait.h completes at the
first moment its condition is observed to hold; it is embedded either as
a search for the first satisfying state in a trace of observed states,
or, inside single-threaded executions, as a test of the current state
(with a `blocked` outcome when no concurrent thread exists to ever make
the condition true).
-/

/-- Tunable from block.c: tasks stop dirtying once this many blocks are dirty. -/
def DIRTY_LIMIT : Int := 1024

/-- Tunable from block.c: writeback starts past this many dirty blocks. -/
def WRITEBACK_THRESH : Int := 256

/-- Tunable from block.c: the maximum number of blocks in a dirty set. -/
def SET_LIMIT : Nat := 64

/-- Linux errno EIO, as a value (the plain name is taken by Mathlib). -/
def eioErr : Int := 5

/-- Linux errno ENOMEM for failed allocations. -/
def cENOMEM : Int := 12

/-- Linux errno EINVAL for invalid arguments. -/
def cEINVAL : Int := 22

/-- Block mode flag NBF_NEW from block.h. -/
def NBF_NEW : Nat := 1

/-- Block mode flag NBF_READ from block.h. -/
def NBF_READ : Nat := 2

/-- Block mode flag NBF_WRITE from block.h. -/
def NBF_WRITE : Nat := 4

/-- Transport opcode NGNFS_BTX_OP_GET_READ from block.h. -/
def NGNFS_BTX_OP_GET_READ : Nat := 0

/-- Transport opcode NGNFS_BTX_OP_WRITE from block.h. -/
def NGNFS_BTX_OP_WRITE : Nat := 2

/-- Low bit of the sync_waiters atomic is the latched error flag. -/
def SYNC_WAITERS_ERR : Nat := 1

/-- Each sync waiter accounts for this much of the sync_waiters atomic. -/
def SYNC_WAITERS_INC : Nat := 2

/-!  Association lists standing in for the pointer-linked collections. -/

/-- Lookup in an association list keyed by Nat (the rhashtable and the
set table of the embedding). -/
def lookupA {α : Type} : List (Nat × α) → Nat → Option α
  | [], _ => none
  | p :: rest, k => if p.1 = k then some p.2 else lookupA rest k

/-- Pointwise update of the entry (if any) with key k. -/
def updateA {α : Type} : List (Nat × α) → Nat → (α → α) → List (Nat × α)
  | [], _, _ => []
  | p :: rest, k, f => (if p.1 = k then (p.1, f p.2) else p) :: updateA rest k f

/-- Insert a fresh entry at the front (rhashtable insert of a new key). -/
def insertA {α : Type} (l : List (Nat × α)) (k : Nat) (v : α) : List (Nat × α) :=
  (k, v) :: l

/-- Remove the entry with key k (freeing an object). -/
def removeA {α : Type} (l : List (Nat × α)) (k : Nat) : List (Nat × α) :=
  l.filter (fun p => p.1 ≠ k)

theorem lookupA_updateA_same {α : Type} (l : List (Nat × α)) (k : Nat) (f : α → α) :
    lookupA (updateA l k f) k = (lookupA l k).map f := by
  induction l with
  | nil => rfl
  | cons p rest ih =>
    by_cases h : p.1 = k
    · simp [lookupA, updateA, h]
    · simp [lookupA, updateA, h, ih]

theorem lookupA_updateA_other {α : Type} (l : List (Nat × α)) (k j : Nat) (f : α → α)
    (h : j ≠ k) : lookupA (updateA l k f) j = lookupA l j := by
  induction l with
  | nil => rfl
  | cons p rest ih =>
    by_cases hp : p.1 = k
    · have hne : ¬ (p.1 = j) := by rw [hp]; exact fun e => h e.symm
      simp [lookupA, updateA, hp, hne, ih, Ne.symm h]
    · by_cases hj : p.1 = j
      · simp [lookupA, updateA, hp, hj, h]
      · simp [lookupA, updateA, hp, hj, ih]

/-!  The sync_waiters atomic (block.c lines 265-314).

The C code packs a waiter count and an error latch into one atomic int:
the low bit latches an IO error, each waiter adds SYNC_WAITERS_INC.
The cmpxchg loops are linearizable read-modify-write operations, so the
sequential embedding applies each as one function on the Nat value.  -/

/-- sync_waiters_inc from block.c: a sync caller adds its waiter share. -/
def sync_waiters_inc (w : Nat) : Nat :=
  w + SYNC_WAITERS_INC

/-- sync_waiters_set_error from block.c: the cmpxchg loop keeps retrying
while the observed value has at least one waiter share; its effect is to
set the low error bit, and it is a no-op when the count is below
SYNC_WAITERS_INC. -/
def sync_waiters_set_error (w : Nat) : Nat :=
  if SYNC_WAITERS_INC ≤ w then w ||| SYNC_WAITERS_ERR else w

/-- sync_waiters_has_error from block.c. -/
def sync_waiters_has_error (w : Nat) : Bool :=
  w &&& SYNC_WAITERS_ERR ≠ 0

/-- sync_waiters_dec_error from block.c: remove the caller's share,
report minus EIO when the error latch was observed set, and reset the
latch when the last waiter departs (new value would be the bare error
bit).  Returns the pair of the return value and the new atomic value. -/
def sync_waiters_dec_error (w : Nat) : Int × Nat :=
  let ret : Int := if w &&& SYNC_WAITERS_ERR ≠ 0 then -eioErr else 0
  let n := w - SYNC_WAITERS_INC
  (ret, if n = SYNC_WAITERS_ERR then 0 else n)

theorem lor_one_eq (w : Nat) : w ||| 1 = 2 * (w / 2) + 1 := by
  apply Nat.eq_of_testBit_eq
  intro i
  cases i with
  | zero =>
    rw [Nat.testBit_or, Nat.testBit_zero, Nat.testBit_zero, Nat.testBit_zero]
    have h : (2 * (w / 2) + 1) % 2 = 1 := by omega
    rw [h]
    simp
  | succ j =>
    rw [Nat.testBit_or, Nat.testBit_succ, Nat.testBit_succ, Nat.testBit_succ]
    have h1 : (1:Nat) / 2 = 0 := by omega
    have h2 : (2 * (w / 2) + 1) / 2 = w / 2 := by omega
    rw [h1, h2, Nat.zero_testBit, Bool.or_false]

/-!  The data model: struct ngnfs_block, struct ngnfs_block_set and
struct ngnfs_block_info from block.c, as records.  Blocks are keyed by
their block number bnr; sets get a synthetic id allocated from a
counter (standing in for the heap address of the kmalloc allocation).
Pages are identified by a page id; block data contents are outside the
model (no claim depends on the bytes).  -/

/-- The BL_ state bits of struct ngnfs_block. -/
structure BlockBits where
  reading : Bool
  uptodate : Bool
  error : Bool
  dirty : Bool
deriving DecidableEq

/-- All BL_ bits clear (freshly allocated block, kzalloc). -/
def BlockBits.clear : BlockBits :=
  { reading := false, uptodate := false, error := false, dirty := false }

/-- struct ngnfs_block: identity, refcount, bits, recorded error, page,
and the dirty-set back-reference (bl->set, by set id). -/
structure BlockRec where
  set : Option Nat
  refcount : Nat
  bits : BlockBits
  error : Int
  page : Nat
deriving DecidableEq

/-- The SET_ state bits of struct ngnfs_block_set. -/
structure SetBits where
  dirtying : Bool
  dirty : Bool
  writeback : Bool
deriving DecidableEq

/-- All SET_ bits clear. -/
def SetBits.clear : SetBits :=
  { dirtying := false, dirty := false, writeback := false }

/-- struct ngnfs_block_set.  block_list holds the member bnrs in
list order (bl->set_head links); submitted_blocks counts blocks under
write IO; dirty_seq is assigned on the first DIRTY transition. -/
structure SetRec where
  refcount : Nat
  submitted_blocks : Int
  block_list : List Nat
  dirty_seq : Nat
  bits : SetBits
  size : Nat
deriving DecidableEq

/-- struct ngnfs_block_info: the counters, sequence numbers, the two
intake stacks (llist, head equals most recent push) with their private
FIFOs, plus the block index and the live sets.  atomic_t counters are
Int (C int); the u64 sequence counters are Nat, incremented modulo
2 to the 64.  -/
structure CacheState where
  blocks : List (Nat × BlockRec)
  sets : List (Nat × SetRec)
  next_set_id : Nat
  queue_depth : Int
  nr_dirty : Int
  nr_writeback : Int
  nr_submitted : Int
  sync_waiters : Nat
  dirty_seq : Nat
  writeback_seq : Nat
  sync_seq : Nat
  submit_llist : List Nat
  submit_list : List Nat
  writeback_llist : List Nat
  writeback_list : List Nat
deriving DecidableEq

/-- Wraparound for the atomic64 sequence counters. -/
def u64_mod : Nat := 2 ^ 64

/-- get_block from block.c: take a block reference. -/
def get_block (st : CacheState) (bnr : Nat) : CacheState :=
  { st with blocks := updateA st.blocks bnr (fun b => { b with refcount := b.refcount + 1 }) }

/-- put_block from block.c: drop a block reference; at zero the block is
freed (after the RCU grace period) and leaves the model. -/
def put_block (st : CacheState) (bnr : Nat) : CacheState :=
  match lookupA st.blocks bnr with
  | none => st
  | some b =>
    if b.refcount ≤ 1 then { st with blocks := removeA st.blocks bnr }
    else { st with blocks := updateA st.blocks bnr (fun b => { b with refcount := b.refcount - 1 }) }

/-- get_set from block.c: take a set reference. -/
def get_set (st : CacheState) (sid : Nat) : CacheState :=
  { st with sets := updateA st.sets sid (fun s => { s with refcount := s.refcount + 1 }) }

/-- put_set from block.c: drop a set reference; at zero the set is freed
(kfree_rcu) and leaves the model. -/
def put_set (st : CacheState) (sid : Nat) : CacheState :=
  match lookupA st.sets sid with
  | none => st
  | some s =>
    if s.refcount ≤ 1 then { st with sets := removeA st.sets sid }
    else { st with sets := updateA st.sets sid (fun s => { s with refcount := s.refcount - 1 }) }

/-- put_set applied to a possibly-NULL set pointer (put_set tolerates
NULL through IS_ERR_OR_NULL). -/
def put_set_opt (st : CacheState) (sid : Option Nat) : CacheState :=
  match sid with
  | none => st
  | some s => put_set st s

/-- should_writeback from block.c: writeback is wanted when a sync is
ahead of writeback or enough dirty blocks accumulated, and the queue
depth is not already filled by writeback. -/
def should_writeback (st : CacheState) : Bool :=
  let dirty := st.nr_dirty
  let writeback := st.nr_writeback
  (decide (st.sync_seq > st.writeback_seq) || decide (dirty - writeback ≥ WRITEBACK_THRESH)) &&
    decide (writeback < st.queue_depth)

/-- The writeback trigger predicate in the words of the specification:
true iff (sync_seq is ahead of writeback_seq OR at least WRITEBACK_THRESH
dirty blocks are not yet in writeback) AND writeback is below the queue
depth. -/
def should_writeback_spec (st : CacheState) : Prop :=
  (st.sync_seq > st.writeback_seq ∨ st.nr_dirty - st.nr_writeback ≥ WRITEBACK_THRESH) ∧
    st.nr_writeback < st.queue_depth

/-!  Completion handling (block.c lines 403-499). -/

/-- Observable wake-ups issued by the completion handler.  A wake on a
set's waitq is issued by clear_bit_and_wake_up only when the cleared bit
was set; the final wake on the global waitq is unconditional (the
waitqueue_active test merely elides the futex call when nobody sleeps). -/
inductive IoEvent where
  | wake_set (sid : Nat)
  | wake_global
deriving DecidableEq

/-- Detaching a block from its dissolved set: rcu_assign_pointer of
bl->set to NULL (the list_del_init of set_head is the removal from the
set's block_list, recorded on the set side). -/
def clearSetBackref (r : BlockRec) : BlockRec :=
  { r with set := none }

/-- The list_for_each_entry_safe loop of end_write_io over the set's
block_list: every member block's back-reference is cleared. -/
def clear_backrefs (bs : List (Nat × BlockRec)) (L : List Nat) : List (Nat × BlockRec) :=
  L.foldl (fun acc x => updateA acc x clearSetBackref) bs

theorem clear_backrefs_cons (bs : List (Nat × BlockRec)) (a : Nat) (L : List Nat) :
    clear_backrefs bs (a :: L) = clear_backrefs (updateA bs a clearSetBackref) L := rfl

theorem lookupA_clear_backrefs_of_none {bs : List (Nat × BlockRec)} {b : Nat}
    (L : List Nat) (hb : (lookupA bs b).map BlockRec.set = some none) :
    (lookupA (clear_backrefs bs L) b).map BlockRec.set = some none := by
  induction L generalizing bs with
  | nil => exact hb
  | cons a L ih =>
    rw [clear_backrefs_cons]
    apply ih
    by_cases h : b = a
    · subst h
      rw [lookupA_updateA_same]
      cases hl : lookupA bs b with
      | none => rw [hl] at hb; simp at hb
      | some r => simp [clearSetBackref]
    · rw [lookupA_updateA_other _ _ _ _ h]
      exact hb

theorem lookupA_clear_backrefs_mem {bs : List (Nat × BlockRec)} {b : Nat} {L : List Nat}
    (hb : b ∈ L) (hpres : (lookupA bs b).isSome) :
    (lookupA (clear_backrefs bs L) b).map BlockRec.set = some none := by
  induction L generalizing bs with
  | nil => cases hb
  | cons a L ih =>
    rw [clear_backrefs_cons]
    rcases List.mem_cons.mp hb with h | h
    · subst h
      apply lookupA_clear_backrefs_of_none
      rw [lookupA_updateA_same]
      cases hl : lookupA bs b with
      | none => rw [hl] at hpres; simp at hpres
      | some r => simp [clearSetBackref]
    · apply ih h
      by_cases he : b = a
      · subst he
        rw [lookupA_updateA_same]
        cases hl : lookupA bs b with
        | none => rw [hl] at hpres; simp at hpres
        | some r => simp
      · rw [lookupA_updateA_other _ _ _ _ he]
        exact hpres

/-- end_write_io from block.c.  Finish write IO on a block in a set:
drop nr_writeback, drop the set's submitted_blocks, and once the last
block completes dissolve the set: subtract its size from nr_dirty, zero
the size, detach every member block's back-reference, clear the
WRITEBACK bit (waking the set's waiters), drop one set reference and
wake the global waiters.  The two BUG_ON assertions (a set must be
attached; write errors are unsupported) are embedded as a none result. -/
def end_write_io (st : CacheState) (bnr : Nat) : Option (CacheState × List IoEvent) :=
  match lookupA st.blocks bnr with
  | none => none
  | some bl =>
    match bl.set with
    | none => none
    | some sid =>
      match lookupA st.sets sid with
      | none => none
      | some set0 =>
        if bl.bits.error then none
        else
          let st1 := { st with nr_writeback := st.nr_writeback - 1 }
          let sb := set0.submitted_blocks - 1
          let st2 := { st1 with
            sets := updateA st1.sets sid (fun s => { s with submitted_blocks := sb }) }
          if sb > 0 then some (st2, [])
          else
            let st3 := { st2 with
              nr_dirty := st2.nr_dirty - (set0.size : Int),
              sets := updateA st2.sets sid (fun s => { s with size := 0 }) }
            let st4 := { st3 with
              blocks := clear_backrefs st3.blocks set0.block_list,
              sets := updateA st3.sets sid (fun s => { s with block_list := [] }) }
            let wasWb := set0.bits.writeback
            let clearWb := fun (s : SetRec) => { s with bits := { s.bits with writeback := false } }
            let st5 := { st4 with sets := updateA st4.sets sid clearWb }
            let st6 := put_set st5 sid
            some (st6, (if wasWb then [IoEvent.wake_set sid] else []) ++ [IoEvent.wake_global])

theorem lookupA_updateA4 {α : Type} (l : List (Nat × α)) (k : Nat) (f1 f2 f3 f4 : α → α)
    (v : α) (h : lookupA l k = some v) :
    lookupA (updateA (updateA (updateA (updateA l k f1) k f2) k f3) k f4) k =
      some (f4 (f3 (f2 (f1 v)))) := by
  simp [lookupA_updateA_same, h]

theorem put_set_live (st : CacheState) (sid : Nat) (s : SetRec)
    (h : lookupA st.sets sid = some s) (href : 2 ≤ s.refcount) :
    put_set st sid =
      { st with sets := updateA st.sets sid (fun x => { x with refcount := x.refcount - 1 }) } := by
  simp only [put_set, h]
  rw [if_neg (by omega)]

/-- A concrete one-block dirty set under writeback whose only write IO
is completing: block 7 belongs to set 0, the set has DIRTY and WRITEBACK
set, one submitted block, and is counted in nr_dirty and nr_writeback.
This is the block record of that state. -/
def exC1_block : BlockRec :=
  { set := some 0, refcount := 2,
    bits := { reading := false, uptodate := true, error := false, dirty := true },
    error := 0, page := 1 }

/-- The set record of the exC1 state. -/
def exC1_set : SetRec :=
  { refcount := 2, submitted_blocks := 1, block_list := [7], dirty_seq := 1,
    bits := { dirtying := false, dirty := true, writeback := true }, size := 1 }

/-- The whole exC1 cache state. -/
def exC1 : CacheState :=
  { blocks := [(7, exC1_block)],
    sets := [(0, exC1_set)],
    next_set_id := 1, queue_depth := 64,
    nr_dirty := 1, nr_writeback := 1, nr_submitted := 1, sync_waiters := 0,
    dirty_seq := 1, writeback_seq := 1, sync_seq := 0,
    submit_llist := [], submit_list := [], writeback_llist := [], writeback_list := [] }

/-- C1 counterexample: the claim states that when the last outstanding
block of a dirty set completes, end_write_io clears the set's DIRTY bit.
It does not: on the concrete state exC1 the completion of block 7
dissolves set 0, yet the set's SET_DIRTY bit is still set afterwards
(end_write_io only clears SET_WRITEBACK; no code path clears SET_DIRTY
of the dissolved set). -/
theorem C1_counterexample_dirty_bit_survives :
    (end_write_io exC1 7).map (fun p => (lookupA p.1.sets 0).map (fun s => s.bits.dirty)) =
      some (some true) := by decide

/-- C1 as amended: when a write completion is delivered for the last
outstanding block of a dirty set (submitted_blocks reaches zero),
end_write_io dissolves the set: it subtracts the set's size from
nr_dirty, sets the set's size to 0, clears every member block's set
back-reference, clears the set's WRITEBACK bit, wakes the set's waiters
and the global waiters, and releases one set reference — but it leaves
the set's SET_DIRTY bit untouched (the dissolved set is simply freed
when its last reference is dropped).  nr_writeback is also decremented
for the completing block. -/
theorem C1_end_write_io_dissolution (st : CacheState) (bnr sid : Nat)
    (bl : BlockRec) (set0 : SetRec)
    (hbl : lookupA st.blocks bnr = some bl)
    (hset : bl.set = some sid)
    (hs : lookupA st.sets sid = some set0)
    (herr : bl.bits.error = false)
    (hlast : set0.submitted_blocks = 1)
    (hwb : set0.bits.writeback = true)
    (href : 2 ≤ set0.refcount)
    (hmem : ∀ b ∈ set0.block_list, (lookupA st.blocks b).isSome) :
    ∃ stf evs, end_write_io st bnr = some (stf, evs) ∧
      stf.nr_writeback = st.nr_writeback - 1 ∧
      stf.nr_dirty = st.nr_dirty - (set0.size : Int) ∧
      (∀ b ∈ set0.block_list, (lookupA stf.blocks b).map BlockRec.set = some none) ∧
      lookupA stf.sets sid = some { set0 with
        submitted_blocks := 0, size := 0, block_list := [],
        bits := { set0.bits with writeback := false },
        refcount := set0.refcount - 1 } ∧
      evs = [IoEvent.wake_set sid, IoEvent.wake_global] := by
  simp only [end_write_io, hbl, hset, hs, herr, hlast, hwb]
  rw [show (1:Int) - 1 = 0 from by norm_num]
  rw [if_neg (lt_irrefl (0:Int))]
  rw [put_set_live _ sid _ (lookupA_updateA4 _ _ _ _ _ _ _ hs) (by simpa using href)]
  refine ⟨_, _, rfl, rfl, rfl, ?_, ?_, rfl⟩
  · intro b hb
    exact lookupA_clear_backrefs_mem hb (hmem b hb)
  · rw [lookupA_updateA_same, lookupA_updateA4 _ _ _ _ _ _ _ hs]
    rfl

/-- Witness instantiating C1_end_write_io_dissolution on the concrete
state exC1 (last write completion of block 7 in set 0). -/
theorem C1_end_write_io_dissolution_witness :
    ∃ stf evs, end_write_io exC1 7 = some (stf, evs) ∧
      stf.nr_writeback = exC1.nr_writeback - 1 ∧
      stf.nr_dirty = exC1.nr_dirty - (exC1_set.size : Int) ∧
      (∀ b ∈ exC1_set.block_list, (lookupA stf.blocks b).map BlockRec.set = some none) ∧
      lookupA stf.sets 0 =
        some { exC1_set with
               submitted_blocks := 0, size := 0, block_list := [],
               bits := { exC1_set.bits with writeback := false },
               refcount := exC1_set.refcount - 1 } ∧
      evs = [IoEvent.wake_set 0, IoEvent.wake_global] :=
  C1_end_write_io_dissolution exC1 7 0 exC1_block exC1_set (by decide) (by decide) (by decide)
    (by decide) (by decide) (by decide) (by decide) (by decide)

/-- C8: the writeback trigger predicate should_writeback returns true
if and only if (sync_seq is beyond writeback_seq OR the dirty blocks not
under writeback number at least WRITEBACK_THRESH) AND nr_writeback is
below the queue depth, over the current counter values. -/
theorem C8_should_writeback_iff (st : CacheState) :
    should_writeback st = true ↔ should_writeback_spec st := by
  simp [should_writeback, should_writeback_spec]

/-- Witness applying C8_should_writeback_iff at the concrete state exC1
(one dirty block, one in writeback, queue depth 64, no sync pending:
the predicate is false there, and so is the specification's formula). -/
theorem C8_should_writeback_iff_witness :
    should_writeback exC1 = true ↔ should_writeback_spec exC1 :=
  C8_should_writeback_iff exC1

/-!  C5 and C10: the latched sync error protocol. -/

/-- C5: a caller leaving sync_up_to_seq through sync_waiters_dec_error
returns minus EIO iff the error latch bit was set in the value it
decremented, and the resulting value keeps the latch set iff the latch
was set and another waiter share remains — so the latch is reset exactly
when the last waiter departs.  The hypothesis is the caller's own
share, added by sync_waiters_inc on entry to sync_up_to_seq. -/
theorem sync_waiters_has_error_iff (w : Nat) :
    sync_waiters_has_error w = true ↔ w % 2 = 1 := by
  simp only [sync_waiters_has_error, SYNC_WAITERS_ERR, Nat.and_one_is_mod, ne_eq,
    decide_eq_true_eq]
  omega

theorem C5_sync_waiters_dec_error_latch (w : Nat) (hw : SYNC_WAITERS_INC ≤ w) :
    ((sync_waiters_dec_error w).1 = -eioErr ↔ sync_waiters_has_error w = true) ∧
      (sync_waiters_has_error (sync_waiters_dec_error w).2 = true ↔
        (sync_waiters_has_error w = true ∧ 2 * SYNC_WAITERS_INC ≤ w)) := by
  simp only [sync_waiters_has_error_iff]
  simp only [sync_waiters_dec_error, SYNC_WAITERS_ERR, SYNC_WAITERS_INC,
    Nat.and_one_is_mod] at *
  constructor
  · by_cases h : w % 2 = 0
    · simp [h, eioErr]
    · simp [h, eioErr]
      omega
  · by_cases h : w - 2 = 1
    · simp [h]
      omega
    · rw [if_neg h]
      omega

/-- Witness for C5: the two-waiter error scenario.  With two sync
callers waiting (value 2 times SYNC_WAITERS_INC) and the latch set, the
first departure returns minus EIO and leaves the latch set; applying the
theorem again at the remaining value, the second departure also returns
minus EIO and only then is the latch cleared. -/
theorem C5_sync_waiters_dec_error_latch_witness :
    (((sync_waiters_dec_error 5).1 = -eioErr ↔ sync_waiters_has_error 5 = true) ∧
      (sync_waiters_has_error (sync_waiters_dec_error 5).2 = true ↔
        (sync_waiters_has_error 5 = true ∧ 2 * SYNC_WAITERS_INC ≤ 5))) ∧
    (((sync_waiters_dec_error 3).1 = -eioErr ↔ sync_waiters_has_error 3 = true) ∧
      (sync_waiters_has_error (sync_waiters_dec_error 3).2 = true ↔
        (sync_waiters_has_error 3 = true ∧ 2 * SYNC_WAITERS_INC ≤ 3))) :=
  ⟨C5_sync_waiters_dec_error_latch 5 (by decide), C5_sync_waiters_dec_error_latch 3 (by decide)⟩

/-- C10: a completion error delivered while the sync_waiters counter
holds no waiter share leaves the counter unchanged (the cmpxchg loop of
sync_waiters_set_error is a no-op below SYNC_WAITERS_INC), so the latch
is not raised; a sync that starts afterwards and meets its wait
condition without further errors then returns success, as computed by
the inc/dec pair on the untouched counter. -/
theorem C10_set_error_noop_without_waiters (w : Nat) (hw : w < SYNC_WAITERS_INC) :
    sync_waiters_set_error w = w ∧
      sync_waiters_has_error (sync_waiters_set_error 0) = false ∧
      (sync_waiters_dec_error (sync_waiters_inc (sync_waiters_set_error 0))).1 = 0 := by
  refine ⟨?_, by decide, by decide⟩
  simp [sync_waiters_set_error, Nat.not_le.mpr hw]

/-- Witness for C10 at the concrete counter value zero (no waiters). -/
theorem C10_set_error_noop_without_waiters_witness :
    sync_waiters_set_error 0 = 0 ∧
      sync_waiters_has_error (sync_waiters_set_error 0) = false ∧
      (sync_waiters_dec_error (sync_waiters_inc (sync_waiters_set_error 0))).1 = 0 :=
  C10_set_error_noop_without_waiters 0 (by decide)

/-!  C4: the sync fence.  sync_up_to_seq is embedded over an explicit
interleaving: the waiter sees a trace of states at its wait_event
condition checks, and other threads may perturb the sync_waiters atomic
between the wake-up and the final decrement. -/

/-- Interference on the sync_waiters atomic while one waiter sleeps in
sync_up_to_seq: another sync caller arrives (inc), a completion error
latches (setErr), or another waiter departs (decOther). -/
inductive SwEvent where
  | inc
  | setErr
  | decOther
deriving DecidableEq

/-- One interference step on the sync_waiters value. -/
def swApply (w : Nat) : SwEvent → Nat
  | SwEvent.inc => sync_waiters_inc w
  | SwEvent.setErr => sync_waiters_set_error w
  | SwEvent.decOther => (sync_waiters_dec_error w).2

/-- A whole interference trace applied in order. -/
def swApplyAll (w : Nat) : List SwEvent → Nat
  | [] => w
  | e :: evs => swApplyAll (swApply w e) evs

/-- Legality of an interference trace: a decOther step requires that,
besides the sleeping waiter's own share, the departing waiter's share is
present in the counter. -/
def ValidFrom (w : Nat) : List SwEvent → Prop
  | [] => True
  | e :: evs => (e = SwEvent.decOther → 2 * SYNC_WAITERS_INC ≤ w) ∧ ValidFrom (swApply w e) evs

/-- While a waiter's share is outstanding, a latched error stays
latched: no legal interference can clear the low bit, because only the
departure of the last waiter resets it and our share is still counted. -/
theorem swApplyAll_latch_stable (evs : List SwEvent) (w : Nat)
    (hvalid : ValidFrom w evs) (hodd : w % 2 = 1) (hw : 3 ≤ w) :
    (swApplyAll w evs) % 2 = 1 ∧ 3 ≤ swApplyAll w evs := by
  induction evs generalizing w with
  | nil => exact ⟨hodd, hw⟩
  | cons e evs ih =>
    obtain ⟨hd, hv⟩ := hvalid
    cases e with
    | inc =>
      refine ih _ hv ?_ ?_ <;>
        simp only [swApply, sync_waiters_inc, SYNC_WAITERS_INC] <;> omega
    | setErr =>
      have he : swApply w SwEvent.setErr = w := by
        simp only [swApply, sync_waiters_set_error, SYNC_WAITERS_INC, SYNC_WAITERS_ERR]
        rw [if_pos (by omega), lor_one_eq]
        omega
      rw [swApplyAll, he]
      exact ih _ (he ▸ hv) hodd hw
    | decOther =>
      have h4 : 2 * SYNC_WAITERS_INC ≤ w := hd rfl
      have he : swApply w SwEvent.decOther = w - 2 := by
        simp only [swApply, sync_waiters_dec_error, SYNC_WAITERS_INC, SYNC_WAITERS_ERR]
        rw [if_neg (by simp only [SYNC_WAITERS_INC] at h4; omega)]
      rw [swApplyAll, he]
      refine ih _ (he ▸ hv) ?_ ?_ <;> simp only [SYNC_WAITERS_INC] at h4 <;> omega

/-- A successful find? names the first satisfying element: the list
splits around it and everything before it fails the predicate. -/
theorem find?_split {α : Type} (p : α → Bool) (l : List α) (a : α)
    (h : l.find? p = some a) :
    p a = true ∧ ∃ pre post, l = pre ++ a :: post ∧ ∀ x ∈ pre, p x = false := by
  induction l with
  | nil => cases h
  | cons b l ih =>
    by_cases hb : p b = true
    · rw [List.find?_cons_of_pos _ hb] at h
      obtain rfl : b = a := by injection h
      exact ⟨hb, [], l, rfl, by intro x hx; cases hx⟩
    · rw [List.find?_cons_of_neg _ (by simpa using hb)] at h
      obtain ⟨hpa, pre, post, heq, hpre⟩ := ih h
      refine ⟨hpa, b :: pre, post, by rw [heq]; rfl, ?_⟩
      intro x hx
      rcases List.mem_cons.mp hx with rfl | hx
      · simpa using hb
      · exact hpre x hx

/-- The condition of the wait_event in sync_up_to_seq (block.c:346-348):
an IO error was latched for the sync waiters, or writeback has reached
the caller's seq and no more blocks are in flight. -/
def sync_wait_cond (seq : Nat) (st : CacheState) : Bool :=
  sync_waiters_has_error st.sync_waiters ||
    (decide (st.writeback_seq ≥ seq) && decide (st.nr_writeback = 0))

/-- The entry phase of sync_up_to_seq: add the caller's waiter share and
advance sync_seq to the caller's seq when it is larger (the cmpxchg
loop; the conditional try_queue_writeback_work kick is scheduling
only and does not change this state). -/
def sync_entry (seq : Nat) (st : CacheState) : CacheState :=
  { st with sync_waiters := sync_waiters_inc st.sync_waiters,
            sync_seq := max st.sync_seq seq }

/-- sync_up_to_seq over an explicit interleaving: the waiter checks the
wait_event condition first against the entry state (wait_event tests
before sleeping) and then against each later observed state, leaving the
wait at the first state satisfying sync_wait_cond; between that wake-up
and the final sync_waiters_dec_error other threads may apply the
interference events evs to the sync_waiters atomic.  The result is
none when the wait never completes within the observed trace, otherwise
the caller's return value. -/
def sync_up_to_seq_traced (seq : Nat) (entry : CacheState) (observed : List CacheState)
    (evs : List SwEvent) : Option Int :=
  match (sync_entry seq entry :: observed).find? (sync_wait_cond seq) with
  | none => none
  | some wake => some (sync_waiters_dec_error (swApplyAll wake.sync_waiters evs)).1

/-- ngnfs_block_sync from block.c: sync up to the dirty_seq observed at
the entry of the call. -/
def ngnfs_block_sync_traced (entry : CacheState) (observed : List CacheState)
    (evs : List SwEvent) : Option Int :=
  sync_up_to_seq_traced entry.dirty_seq entry observed evs

/-- C4: if ngnfs_block_sync returns success then at its wake-up instant
writeback_seq had reached the dirty_seq T observed at call entry while
nr_writeback was simultaneously zero; moreover the wake-up state is the
first observed state satisfying the wait condition, so sync did not
return before the condition (or the error latch) was observed.  The
hypotheses say that the wake state is where the wait completed, that
the caller's own waiter share is still counted there, and that the
interference between wake-up and decrement is legal. -/
theorem C4_sync_success_fence (entry wake : CacheState) (observed : List CacheState)
    (evs : List SwEvent)
    (hwake : (sync_entry entry.dirty_seq entry :: observed).find?
        (sync_wait_cond entry.dirty_seq) = some wake)
    (hshare : SYNC_WAITERS_INC ≤ wake.sync_waiters)
    (hvalid : ValidFrom wake.sync_waiters evs)
    (hret : ngnfs_block_sync_traced entry observed evs = some 0) :
    (wake.writeback_seq ≥ entry.dirty_seq ∧ wake.nr_writeback = 0) ∧
      ∃ pre post, sync_entry entry.dirty_seq entry :: observed = pre ++ wake :: post ∧
        ∀ s ∈ pre, sync_wait_cond entry.dirty_seq s = false := by
  obtain ⟨hcond, pre, post, heq, hpre⟩ := find?_split _ _ _ hwake
  have hret0 : (sync_waiters_dec_error (swApplyAll wake.sync_waiters evs)).1 = 0 := by
    unfold ngnfs_block_sync_traced sync_up_to_seq_traced at hret
    rw [hwake] at hret
    injection hret
  have hnoerr : wake.sync_waiters % 2 = 0 := by
    by_contra hodd
    have hodd' : wake.sync_waiters % 2 = 1 := by omega
    have hstable := swApplyAll_latch_stable evs wake.sync_waiters hvalid hodd'
      (by simp only [SYNC_WAITERS_INC] at hshare; omega)
    rw [sync_waiters_dec_error] at hret0
    simp only [Nat.and_one_is_mod, SYNC_WAITERS_ERR] at hret0
    rw [if_pos (by omega)] at hret0
    simp [eioErr] at hret0
  have hc2 : decide (wake.writeback_seq ≥ entry.dirty_seq) &&
      decide (wake.nr_writeback = 0) = true := by
    rw [sync_wait_cond] at hcond
    have hhe : sync_waiters_has_error wake.sync_waiters = false := by
      rw [Bool.eq_false_iff]
      intro hh
      rw [sync_waiters_has_error_iff] at hh
      omega
    rw [hhe] at hcond
    simpa using hcond
  refine ⟨?_, pre, post, heq, hpre⟩
  simp only [Bool.and_eq_true, decide_eq_true_eq] at hc2
  exact hc2

/-- A quiescent cache state used by concrete instantiations. -/
def baseState : CacheState :=
  { blocks := [], sets := [], next_set_id := 0, queue_depth := 64,
    nr_dirty := 0, nr_writeback := 0, nr_submitted := 0, sync_waiters := 0,
    dirty_seq := 0, writeback_seq := 0, sync_seq := 0,
    submit_llist := [], submit_list := [], writeback_llist := [], writeback_list := [] }

/-- Entry state of the C4 witness sync call: one set was dirtied and
already written back (dirty_seq and writeback_seq both 1, nothing in
flight), so the wait condition holds at the entry check itself. -/
def exC4 : CacheState :=
  { baseState with dirty_seq := 1, writeback_seq := 1 }

/-- Witness applying C4_sync_success_fence to the concrete call on exC4
with an empty interference trace: the wake state is the entry state and
the fence condition holds there. -/
theorem C4_sync_success_fence_witness :
    ((sync_entry exC4.dirty_seq exC4).writeback_seq ≥ exC4.dirty_seq ∧
        (sync_entry exC4.dirty_seq exC4).nr_writeback = 0) ∧
      ∃ pre post, sync_entry exC4.dirty_seq exC4 :: ([] : List CacheState) =
          pre ++ sync_entry exC4.dirty_seq exC4 :: post ∧
        ∀ s ∈ pre, sync_wait_cond exC4.dirty_seq s = false :=
  C4_sync_success_fence exC4 (sync_entry exC4.dirty_seq exC4) [] [] (by decide) (by decide)
    trivial (by decide)

/-!  C3: the submit pipeline (block.c lines 501-576). -/

/-- One transport submission recorded by the model: the chosen op, the
block number, and the value of nr_submitted during the submit_block
call (the atomic_inc precedes the call). -/
structure SubmitEvent where
  op : Nat
  bnr : Nat
  nr_submitted_at_call : Int
deriving DecidableEq

/-- del_all_reverse_add_tail from block.c applied to the submit intake:
the llist snapshot (most recent push first) is reversed into arrival
order and spliced onto the tail of the worker's private list. -/
def submit_splice (st : CacheState) : CacheState :=
  { st with submit_list := st.submit_list ++ st.submit_llist.reverse, submit_llist := [] }

/-- Op choice in ngnfs_block_submit_work: GET_READ while the block has
BL_READING set, WRITE otherwise (GET_WRITE is not operational yet). -/
def block_submit_op (st : CacheState) (bnr : Nat) : Nat :=
  match lookupA st.blocks bnr with
  | some bl => if bl.bits.reading then NGNFS_BTX_OP_GET_READ else NGNFS_BTX_OP_WRITE
  | none => NGNFS_BTX_OP_WRITE

/-- The dispatch loop of ngnfs_block_submit_work.  space holds the
local queue-room snapshot; the C test is (space-- < 0), so an entry is
dispatched whenever the pre-decrement space is not yet negative, and on
break the current entry stays on the private list.  Each dispatch
increments nr_submitted, calls the transport, and puts the intake
reference. -/
def submit_work_loop (st : CacheState) (fifo : List Nat) (space : Int)
    (evs : List SubmitEvent) : CacheState × List SubmitEvent :=
  match fifo with
  | [] => ({ st with submit_list := [] }, evs.reverse)
  | bnr :: rest =>
    if space < 0 then ({ st with submit_list := bnr :: rest }, evs.reverse)
    else
      let op := block_submit_op st bnr
      let st1 := { st with nr_submitted := st.nr_submitted + 1 }
      let ev : SubmitEvent := { op := op, bnr := bnr, nr_submitted_at_call := st1.nr_submitted }
      let st2 := put_block st1 bnr
      submit_work_loop st2 rest (space - 1) (ev :: evs)

/-- ngnfs_block_submit_work from block.c: splice the intake, snapshot
the remaining queue room, and dispatch from the private FIFO. -/
def ngnfs_block_submit_work (st : CacheState) : CacheState × List SubmitEvent :=
  let st1 := submit_splice st
  let space := st1.queue_depth - st1.nr_submitted
  submit_work_loop st1 st1.submit_list space []

/-- A reading block awaiting submission, for the C3 failing input. -/
def exC3_block : BlockRec :=
  { set := none, refcount := 2,
    bits := { reading := true, uptodate := false, error := false, dirty := false },
    error := 0, page := 1 }

/-- C3 failing input: queue_depth 1, nothing submitted yet, two blocks
(0 then 1, in arrival order) waiting on the submit intake. -/
def exC3 : CacheState :=
  { baseState with queue_depth := 1,
                   blocks := [(0, exC3_block), (1, exC3_block)],
                   submit_llist := [1, 0] }

/-- C3 is violated by the code: with queue_depth 1 and two queued
blocks, the worker's (space-- < 0) test lets the second dispatch through
even though nr_submitted already equals the queue depth, so the second
transport call happens with nr_submitted = 2 > queue_depth = 1.  The
claimed invariant nr_submitted ≤ queue_depth at submission time fails,
and the worker did not stop once nr_submitted was no longer strictly
below queue_depth. -/
theorem C3_submit_work_exceeds_queue_depth :
    (ngnfs_block_submit_work exC3).2 =
      [⟨NGNFS_BTX_OP_GET_READ, 0, 1⟩, ⟨NGNFS_BTX_OP_GET_READ, 1, 2⟩] ∧
      exC3.queue_depth = 1 ∧
      (ngnfs_block_submit_work exC3).1.nr_submitted = 2 := by decide

/-!  C2 and C9: the dirty grouper ngnfs_block_dirty_begin and its
helpers (block.c lines 727-973), in their single-threaded execution:
cmpxchg races are won, and a wait_event whose condition only another
thread could establish leaves the caller blocked. -/

/-- Rewriting the back-references of a list of blocks to a set (the
for-each over small's blocks during a merge). -/
def set_backrefs (bs : List (Nat × BlockRec)) (L : List Nat) (sid : Nat) :
    List (Nat × BlockRec) :=
  L.foldl (fun acc x => updateA acc x (fun r => { r with set := some sid })) bs

/-- get_other_set from block.c.  Returns the updated state paired with:
none when the block already sits in the caller's existing set or was
just added to it, or the id of the block's (possibly freshly allocated)
other set with a reference taken.  Sequentially the cmpxchg attempts
succeed on the first try, and allocation succeeds (the ENOMEM path
carries no claim).  kmalloc leaves dirty_seq uninitialized; the model
uses 0, and the field is only read after the first DIRTY transition
assigns it. -/
def get_other_set (st : CacheState) (bnr : Nat) (existing : Option Nat) :
    Option (CacheState × Option Nat) :=
  match lookupA st.blocks bnr with
  | none => none
  | some bl =>
    match bl.set with
    | some sid =>
      if existing = some sid then some (st, none)
      else some (get_set st sid, some sid)
    | none =>
      match existing with
      | some e =>
        let st1 := { st with
          blocks := updateA st.blocks bnr (fun b => { b with set := some e }) }
        let st2 := { st1 with
          sets := updateA st1.sets e (fun s => { s with
            block_list := s.block_list ++ [bnr], size := s.size + 1 }) }
        some (st2, none)
      | none =>
        let sid := st.next_set_id
        let newset : SetRec := { refcount := 2, submitted_blocks := 0, block_list := [bnr],
                                 dirty_seq := 0, bits := SetBits.clear, size := 1 }
        let st1 := { st with sets := insertA st.sets sid newset, next_set_id := sid + 1 }
        let st2 := { st1 with
          blocks := updateA st1.blocks bnr (fun b => { b with set := some sid }) }
        some (st2, some sid)

/-- The reverse walk of clear_set_dirtying: strip the trailing blocks of
the set that are not yet BL_DIRTY (they were speculatively attached),
detaching each and shrinking the size. -/
def strip_undirty (st : CacheState) (sid : Nat) : List Nat → CacheState
  | [] => st
  | b :: rest =>
    match lookupA st.blocks b with
    | none => st
    | some bl =>
      if bl.bits.dirty then st
      else
        let st1 := { st with
          blocks := updateA st.blocks b (fun r => { r with set := none }) }
        let st2 := { st1 with
          sets := updateA st1.sets sid (fun s => { s with
            block_list := s.block_list.dropLast, size := s.size - 1 }) }
        strip_undirty st2 sid rest

/-- clear_set_dirtying from block.c: remove the speculatively added
clean blocks from the set's tail, then clear SET_DIRTYING (waking the
set's waiters) and kick the writeback work. -/
def clear_set_dirtying (st : CacheState) (sid : Nat) : CacheState :=
  match lookupA st.sets sid with
  | none => st
  | some s =>
    let st1 := strip_undirty st sid s.block_list.reverse
    { st1 with sets := updateA st1.sets sid (fun x => { x with
        bits := { x.bits with dirtying := false } }) }

/-- sync_up_to_seq as reachable from a single-threaded execution: the
caller's wait_event can only complete if its condition already holds
once sync_seq has been advanced (no other thread will move
writeback_seq), in which case the inc/advance/wait/dec sequence runs to
completion; otherwise the caller blocks. -/
def sync_up_to_seq_now (st : CacheState) (seq : Nat) : Option (Int × CacheState) :=
  let st1 := { st with sync_waiters := sync_waiters_inc st.sync_waiters,
                       sync_seq := max st.sync_seq seq }
  if sync_wait_cond seq st1 then
    let r := sync_waiters_dec_error st1.sync_waiters
    some (r.1, { st1 with sync_waiters := r.2 })
  else none

/-- Outcome of one pass of the merge loop of ngnfs_block_dirty_begin
over the caller's blocks. -/
inductive DbLoop where
  | finished (st : CacheState) (small large : Option Nat)
  | restart (st : CacheState)
  | err (ret : Int) (st : CacheState)
  | blocked
  | bug
deriving DecidableEq

/-- One pass of the for_each_dirty_list_block loop of
ngnfs_block_dirty_begin.  small and large carry the set references held
from the previous iteration, exactly as the C locals do: the iteration
begins by putting small's previous reference, then fetches the block's
other set; DIRTYING is acquired test-and-set style; a set found already
DIRTYING or under WRITEBACK would make the caller wait on another
thread, which the single-threaded execution reports as blocked; when
merging two DIRTYING sets would exceed SET_LIMIT the references are
dropped, sync_up_to_seq runs and the whole loop restarts (or the sync
error is returned); otherwise small is merged into large (back-refs
rewritten, lists spliced small-first, sizes moved, small's DIRTY and
DIRTYING cleared with wakes). -/
def dirty_begin_scan (st : CacheState) (small large : Option Nat) : List Nat → DbLoop
  | [] => DbLoop.finished st small large
  | b :: rest =>
    let st0 := put_set_opt st small
    match get_other_set st0 b large with
    | none => DbLoop.bug
    | some (st1, none) => dirty_begin_scan st1 none large rest
    | some (st1, some sid) =>
      match lookupA st1.sets sid with
      | none => DbLoop.bug
      | some s =>
        if s.bits.dirtying then DbLoop.blocked
        else
          let st2 := { st1 with sets := updateA st1.sets sid (fun x => { x with
            bits := { x.bits with dirtying := true } }) }
          if s.bits.writeback then DbLoop.blocked
          else
            match large with
            | none => dirty_begin_scan st2 none (some sid) rest
            | some l =>
              match lookupA st2.sets sid, lookupA st2.sets l with
              | some ss, some sl =>
                let ids := if ss.size > sl.size then (l, sid) else (sid, l)
                let smallId := ids.1
                let largeId := ids.2
                match lookupA st2.sets smallId, lookupA st2.sets largeId with
                | some sSm, some sLg =>
                  if sLg.size + sSm.size > SET_LIMIT then
                    let seq := sLg.dirty_seq
                    let st3 := clear_set_dirtying st2 smallId
                    let st4 := clear_set_dirtying st3 largeId
                    match sync_up_to_seq_now st4 seq with
                    | none => DbLoop.blocked
                    | some (ret, st5) =>
                      let st6 := put_set (put_set st5 smallId) largeId
                      if ret < 0 then DbLoop.err ret st6
                      else DbLoop.restart st6
                  else
                    let st3 := { st2 with
                      blocks := set_backrefs st2.blocks sSm.block_list largeId }
                    let st4 := { st3 with
                      sets := updateA st3.sets largeId (fun x => { x with
                        block_list := sSm.block_list ++ x.block_list,
                        size := x.size + sSm.size }) }
                    let st5 := { st4 with
                      sets := updateA st4.sets smallId (fun x => { x with
                        block_list := [], size := 0 }) }
                    let st6 := { st5 with
                      sets := updateA st5.sets smallId (fun x => { x with
                        bits := { x.bits with dirty := false, dirtying := false } }) }
                    dirty_begin_scan st6 (some smallId) (some largeId) rest
                | _, _ => DbLoop.bug
              | _, _ => DbLoop.bug

/-- The list_for_each_entry_reverse walk after the merge loop: mark the
trailing not-yet-dirty blocks of large BL_DIRTY, counting each into
nr_dirty, stopping at the first already-dirty block. -/
def mark_new_dirty (st : CacheState) : List Nat → CacheState
  | [] => st
  | b :: rest =>
    match lookupA st.blocks b with
    | none => st
    | some bl =>
      if bl.bits.dirty then st
      else
        let st1 := { st with
          blocks := updateA st.blocks b (fun r => { r with
            bits := { r.bits with dirty := true } }),
          nr_dirty := st.nr_dirty + 1 }
        mark_new_dirty st1 rest

/-- Result of a whole (single-threaded) ngnfs_block_dirty_begin run:
done with the C return value, blocked on a wait only another thread
could satisfy, out of restart fuel, or a BUG_ON-grade inconsistency. -/
inductive DbResult where
  | done (ret : Int) (st : CacheState)
  | blocked
  | fuel_out
  | bug
deriving DecidableEq

/-- The tail of ngnfs_block_dirty_begin once the merge loop finished:
mark large's new blocks dirty, then on large's first DIRTY transition
take a writeback-list reference, assign the next dirty_seq and append
large to the writeback intake; the caller's large reference passes on to
dirty_end, and small's reference (the merged-away set, if any) is
dropped at the out label. -/
def dirty_begin_finish (st : CacheState) (small large : Option Nat) : DbResult :=
  match large with
  | none => DbResult.bug
  | some l =>
    match lookupA st.sets l with
    | none => DbResult.bug
    | some sl =>
      let st1 := mark_new_dirty st sl.block_list.reverse
      let setDirtyBit := fun (x : SetRec) => { x with bits := { x.bits with dirty := true } }
      let st2 :=
        if (lookupA st1.sets l).elim false (fun s => s.bits.dirty) then st1
        else
          let st2a := { st1 with sets := updateA st1.sets l setDirtyBit }
          let st2b := get_set st2a l
          let seq := (st2b.dirty_seq + 1) % u64_mod
          let assignSeq := fun (x : SetRec) => { x with dirty_seq := seq }
          let st2c := { st2b with dirty_seq := seq, sets := updateA st2b.sets l assignSeq }
          { st2c with writeback_llist := l :: st2c.writeback_llist }
      DbResult.done 0 (put_set_opt st2 small)

/-- The restart loop of ngnfs_block_dirty_begin: each pass rescans the
whole caller list with fresh small/large, as the restart label does;
fuel bounds the number of restarts. -/
def dirty_begin_restart (fuel : Nat) (st : CacheState) (list : List Nat) : DbResult :=
  match fuel with
  | 0 => DbResult.fuel_out
  | Nat.succ fuel =>
    match dirty_begin_scan st none none list with
    | DbLoop.finished st1 small large => dirty_begin_finish st1 small large
    | DbLoop.restart st1 => dirty_begin_restart fuel st1 list
    | DbLoop.err ret st1 => DbResult.done ret st1
    | DbLoop.blocked => DbResult.blocked
    | DbLoop.bug => DbResult.bug

/-- ngnfs_block_dirty_begin from block.c in its single-threaded
execution: an empty caller list returns 0 immediately, before the
DIRTY_LIMIT admission wait; a non-empty list passes admission only if
nr_dirty is already below DIRTY_LIMIT (no other thread exists to shrink
it), and then the merge loop runs. -/
def ngnfs_block_dirty_begin (fuel : Nat) (st : CacheState) (list : List Nat) : DbResult :=
  if list.isEmpty then DbResult.done 0 st
  else if st.nr_dirty < DIRTY_LIMIT then dirty_begin_restart fuel st list
  else DbResult.blocked

/-- A clean cached block holding a caller's write reference, for the C2
failing input. -/
def exC2_block : BlockRec :=
  { set := none, refcount := 2,
    bits := { reading := false, uptodate := true, error := false, dirty := false },
    error := 0, page := 1 }

/-- C2 failing input: 65 cached blocks (bnrs 0..64), none dirty, none in
any set, and a transaction calls dirty_begin on all 65 of them. -/
def exC2 : CacheState :=
  { baseState with blocks := (List.range 65).map (fun n => (n, exC2_block)) }

/-- The single-threaded run of that call. -/
def exC2_run : DbResult := ngnfs_block_dirty_begin 2 exC2 (List.range 65)

/-- The final state's set table under a done result. -/
def db_result_set (r : DbResult) (sid : Nat) : Option SetRec :=
  match r with
  | DbResult.done _ st => lookupA st.sets sid
  | _ => none

/-- The C return value under a done result. -/
def db_result_ret : DbResult → Option Int
  | DbResult.done r _ => some r
  | _ => none

set_option maxRecDepth 100000 in
/-- C2 is violated by the code: dirty_begin attaches set-less blocks to
the caller's growing set with no size check (only merges of two existing
sets are bounded), so a single call over 65 fresh blocks succeeds and
builds one DIRTY dirty-set of size 65 > SET_LIMIT = 64.  This
contradicts the SET_LIMIT comment in block.c (the maximum number of
blocks in a dirty set). -/
theorem C2_dirty_begin_exceeds_set_limit :
    db_result_ret exC2_run = some 0 ∧
      (db_result_set exC2_run 0).map SetRec.size = some 65 ∧
      (db_result_set exC2_run 0).map (fun s => s.bits.dirty) = some true ∧
      SET_LIMIT = 64 := by decide

/-- Outcome of the admission prologue of ngnfs_block_dirty_begin. -/
inductive Admission where
  | empty_return
  | proceed (s : CacheState)
  | waiting
deriving DecidableEq

/-- The admission prologue of ngnfs_block_dirty_begin (block.c lines
859-864): an empty caller list returns success immediately, before the
DIRTY_LIMIT wait_event; otherwise the caller leaves the wait at the
first observed state (the entry state is tested first) whose nr_dirty is
below DIRTY_LIMIT, and waits on if no observed state qualifies. -/
def dirty_begin_admission (list : List Nat) (states : List CacheState) : Admission :=
  if list.isEmpty then Admission.empty_return
  else
    match states.find? (fun s => decide (s.nr_dirty < DIRTY_LIMIT)) with
    | some s => Admission.proceed s
    | none => Admission.waiting

/-- A state saturated at the dirty limit, for the C9 counterexample. -/
def exC9 : CacheState :=
  { baseState with nr_dirty := DIRTY_LIMIT }

/-- C9 counterexample: the claim says every invocation of dirty_begin,
including one with an empty block list, blocks until nr_dirty <
DIRTY_LIMIT.  With the empty list the code returns 0 before the
admission wait: at the saturated state exC9 (nr_dirty = DIRTY_LIMIT)
the caller proceeds immediately with success and never waits. -/
theorem C9_counterexample_empty_list_skips_admission :
    dirty_begin_admission [] [exC9] = Admission.empty_return ∧
      ngnfs_block_dirty_begin 1 exC9 [] = DbResult.done 0 exC9 ∧
      ¬ exC9.nr_dirty < DIRTY_LIMIT := by decide

/-- C9 as amended: for every invocation of dirty_begin with a non-empty
block list, the caller never proceeds past admission while nr_dirty ≥
DIRTY_LIMIT: the state at which it leaves the admission wait satisfies
nr_dirty < DIRTY_LIMIT (set manipulation only begins after that), and a
single-threaded caller whose state stays at or above the limit is
blocked.  An empty list, by contrast, returns success before the wait
without touching any set. -/
theorem C9_admission_amended (list : List Nat) (states : List CacheState)
    (s st : CacheState) (fuel : Nat) (hne : list ≠ [])
    (h : dirty_begin_admission list states = Admission.proceed s) :
    s.nr_dirty < DIRTY_LIMIT ∧
      (st.nr_dirty ≥ DIRTY_LIMIT → ngnfs_block_dirty_begin fuel st list = DbResult.blocked) := by
  constructor
  · rw [dirty_begin_admission] at h
    rw [if_neg (by simpa using hne)] at h
    cases hf : states.find? (fun x => decide (x.nr_dirty < DIRTY_LIMIT)) with
    | none => rw [hf] at h; cases h
    | some w =>
      rw [hf] at h
      obtain rfl : w = s := by injection h
      have := List.find?_some hf
      simpa using this
  · intro hge
    rw [ngnfs_block_dirty_begin]
    rw [if_neg (by simpa using hne)]
    rw [if_neg (by omega)]

/-- Witness for the amended C9: a one-block call admitted at the base
state (nr_dirty 0), with exC9 as the saturated state that blocks. -/
theorem C9_admission_amended_witness :
    baseState.nr_dirty < DIRTY_LIMIT ∧
      (exC9.nr_dirty ≥ DIRTY_LIMIT → ngnfs_block_dirty_begin 1 exC9 [3] = DbResult.blocked) :=
  C9_admission_amended [3] [baseState] baseState exC9 1 (by decide) (by decide)

/-!  C6: block acquisition and read completion (block.c lines 376-499
and 658-710). -/

/-- bad_nbf from block.c: more than one of the mutually exclusive
NBF_READ/NBF_WRITE flags set (hweight of nbf masked by NBF_RW_EXCL
exceeds one exactly when both bits are set). -/
def bad_nbf (nbf : Nat) : Bool :=
  decide (nbf &&& NBF_READ ≠ 0) && decide (nbf &&& NBF_WRITE ≠ 0)

/-- lookup_or_alloc_block from block.c, sequentially: a hit takes a
reference; a miss allocates a zeroed block (refcount 1 for the cache
insert), inserts it (no race to lose), and takes the caller's
reference. -/
def lookup_or_alloc_block (st : CacheState) (bnr : Nat) : CacheState :=
  match lookupA st.blocks bnr with
  | some _ => get_block st bnr
  | none =>
    let nb : BlockRec := { set := none, refcount := 1, bits := BlockBits.clear,
                           error := 0, page := 0 }
    let st1 := { st with blocks := insertA st.blocks bnr nb }
    get_block st1 bnr

/-- Outcome of the front half of ngnfs_block_get: invalid flags, a
reference usable without waiting, or a reference whose holder now sits
in the wait_event until BL_READING clears. -/
inductive GetStart where
  | inval
  | ready (st : CacheState)
  | waiting (st : CacheState)
deriving DecidableEq

/-- The front of ngnfs_block_get up to (and including entering) the
wait_event: flag validation, lookup-or-insert, the NBF_NEW shortcut
(zero the buffer — outside the data model — and set UPTODATE), and,
when the block is not UPTODATE, the test_and_set of BL_READING whose
winner takes an intake reference and appends the block to the submit
intake.  The BL_ERROR check runs in ngnfs_block_get_finish once
BL_READING is observed clear. -/
def ngnfs_block_get_start (st : CacheState) (bnr : Nat) (nbf : Nat) : GetStart :=
  if bad_nbf nbf then GetStart.inval
  else
    let st1 := lookup_or_alloc_block st bnr
    let setU := fun (b : BlockRec) => { b with bits := { b.bits with uptodate := true } }
    let st2 :=
      if nbf &&& NBF_NEW ≠ 0 then { st1 with blocks := updateA st1.blocks bnr setU }
      else st1
    match lookupA st2.blocks bnr with
    | none => GetStart.inval
    | some bl =>
      if bl.bits.uptodate then GetStart.ready st2
      else
        if bl.bits.reading then GetStart.waiting st2
        else
          let setR := fun (b : BlockRec) => { b with bits := { b.bits with reading := true } }
          let st3 := { st2 with blocks := updateA st2.blocks bnr setR }
          let st4 := get_block st3 bnr
          GetStart.waiting { st4 with submit_llist := bnr :: st4.submit_llist }

/-- The tail of ngnfs_block_get, reached once BL_READING is clear (or
was never set): if BL_ERROR is set, read the recorded error, drop the
caller's reference and fail with that error; otherwise the caller keeps
the reference.  The pair is the resulting state and the error, none
meaning success. -/
def ngnfs_block_get_finish (st : CacheState) (bnr : Nat) : CacheState × Option Int :=
  match lookupA st.blocks bnr with
  | none => (st, some (-cEINVAL))
  | some bl =>
    if bl.bits.error then (put_block st bnr, some bl.error)
    else (st, none)

/-- end_read_io from block.c: swap in the transport's data page when one
is provided, set UPTODATE unless ERROR is set, then clear READING and
wake the block's waiters. -/
def end_read_io (st : CacheState) (bnr : Nat) (data_page : Option Nat) : CacheState :=
  let st1 :=
    match data_page with
    | some p => { st with blocks := updateA st.blocks bnr (fun b => { b with page := p }) }
    | none => st
  let setU := fun (b : BlockRec) =>
    if b.bits.error then b else { b with bits := { b.bits with uptodate := true } }
  let st2 := { st1 with blocks := updateA st1.blocks bnr setU }
  let clearR := fun (b : BlockRec) => { b with bits := { b.bits with reading := false } }
  { st2 with blocks := updateA st2.blocks bnr clearR }

/-- ngnfs_block_end_io from block.c: look the block up (taking a
reference; an unknown bnr is an assertion failure, none), on a negative
err set BL_ERROR, record the error and raise the sync error latch; then
finish read IO if BL_READING is set, else finish write IO; finally drop
the lookup reference. -/
def ngnfs_block_end_io (st : CacheState) (bnr : Nat) (data_page : Option Nat) (err : Int) :
    Option CacheState :=
  match lookupA st.blocks bnr with
  | none => none
  | some _ =>
    let st0 := get_block st bnr
    let st1 :=
      if err < 0 then
        let setE := fun (b : BlockRec) =>
          { b with bits := { b.bits with error := true }, error := err }
        let sta := { st0 with blocks := updateA st0.blocks bnr setE }
        { sta with sync_waiters := sync_waiters_set_error sta.sync_waiters }
      else st0
    match lookupA st1.blocks bnr with
    | none => none
    | some bl =>
      let st2 :=
        if bl.bits.reading then some (end_read_io st1 bnr data_page)
        else (end_write_io st1 bnr).map (fun p => p.1)
      st2.map (fun s => put_block s bnr)

/-- State extractor for GetStart outcomes that carry a state. -/
def gs_state : GetStart → Option CacheState
  | GetStart.ready st => some st
  | GetStart.waiting st => some st
  | GetStart.inval => none

/-- Whether the get caller entered the wait with a read in flight. -/
def gs_waiting : GetStart → Bool
  | GetStart.waiting _ => true
  | _ => false

/-- C6 scenario, step 1: first get(42, READ) on an empty cache queues a
read and waits. -/
def exC6_a : GetStart := ngnfs_block_get_start baseState 42 NBF_READ

/-- The waiter's state, with the submit worker having dispatched the
read to the transport. -/
def exC6_s1 : CacheState :=
  (ngnfs_block_submit_work ((gs_state exC6_a).getD baseState)).1

/-- The transport reports err = -EIO for bnr 42. -/
def exC6_s2 : CacheState := (ngnfs_block_end_io exC6_s1 42 none (-eioErr)).getD baseState

/-- The woken first caller finishes its get. -/
def exC6_fin1 : CacheState × Option Int := ngnfs_block_get_finish exC6_s2 42

/-- A second get(42, READ) after the first failed. -/
def exC6_b : GetStart := ngnfs_block_get_start exC6_fin1.1 42 NBF_READ

/-- The second caller's state after the submit worker dispatched the
retried read. -/
def exC6_s4 : CacheState :=
  (ngnfs_block_submit_work ((gs_state exC6_b).getD baseState)).1

/-- This time the transport read completes successfully (err = 0). -/
def exC6_s5 : CacheState := (ngnfs_block_end_io exC6_s4 42 none 0).getD baseState

/-- The woken second caller finishes its get. -/
def exC6_fin2 : CacheState × Option Int := ngnfs_block_get_finish exC6_s5 42

/-- C6 is violated by the code.  What holds: after the transport read
completion with err = -EIO for bnr 42, the first caller of get(42, READ)
receives -EIO and neither DIRTY nor UPTODATE is set on the entry; and a
subsequent get(42, READ) does trigger a new READ attempt (the caller
waits again with BL_READING set and the worker dispatches a GET_READ).
What fails: the new attempt cannot succeed — BL_ERROR is never cleared
and the errored entry is never removed from the hash index (its cache
reference keeps it alive and every lookup returns it, contradicting the
BL_ERROR comment in block.c that the block 'will be removed from the
cache once all references get a chance to return the error'), so even
after the retried read completes with err = 0 the second caller still
receives the stale -EIO and UPTODATE is still unset. -/
theorem C6_stale_error_blocks_retry :
    gs_waiting exC6_a = true ∧
      exC6_fin1.2 = some (-eioErr) ∧
      (lookupA exC6_fin1.1.blocks 42).map (fun b => b.bits.uptodate) = some false ∧
      (lookupA exC6_fin1.1.blocks 42).map (fun b => b.bits.dirty) = some false ∧
      gs_waiting exC6_b = true ∧
      (ngnfs_block_submit_work ((gs_state exC6_b).getD baseState)).2.map SubmitEvent.op =
        [NGNFS_BTX_OP_GET_READ] ∧
      exC6_fin2.2 = some (-eioErr) ∧
      (lookupA exC6_fin2.1.blocks 42).map (fun b => b.bits.uptodate) = some false := by decide

/-!  C7: the transaction driver ngnfs_txn_execute (txn.c lines 83-123).
The block-cache calls it makes (ngnfs_block_get, dirty_begin,
dirty_end) and the caller-supplied prepare/commit callbacks are
abstracted into an environment recording their outcomes; the driver's
own control flow is embedded exactly, and the calls it performs are
recorded as an event log.  prepare callbacks may append further
descriptors with ngnfs_txn_add_block; since list_for_each_entry then
visits the appended entries just as if they had been present from the
start, the model takes the final descriptor list as its input. -/

/-- struct ngnfs_transaction_block: bnr, mode flags, presence of the
prepare and commit callbacks, and the value prepare would return. -/
structure TxnBlock where
  bnr : Nat
  nbf : Nat
  has_prepare : Bool
  prepare_ret : Int
  has_commit : Bool
deriving DecidableEq

/-- Outcomes of the external calls an execute run makes: the result of
each ngnfs_block_get (none is success, some e a negative errno), and
the return value of ngnfs_block_dirty_begin on the write list. -/
structure TxnEnv where
  get_err : Nat → Nat → Option Int
  dirty_begin_ret : Int

/-- The calls ngnfs_txn_execute performs, in order. -/
inductive TxnEvent where
  | prepare (bnr : Nat)
  | dirty_begin
  | commit (bnr : Nat)
  | dirty_end
deriving DecidableEq

/-- The acquisition loop of ngnfs_txn_execute: get each block in order
(a failed get aborts with its error), run prepare when present (a
negative prepare result aborts with it), and append WRITE-mode blocks
that passed prepare to the write list.  evs and writes accumulate in
reverse. -/
def txn_acquire (env : TxnEnv) : List TxnBlock → List TxnEvent → List TxnBlock →
    Except (Int × List TxnEvent) (List TxnEvent × List TxnBlock)
  | [], evs, writes => Except.ok (evs.reverse, writes.reverse)
  | tblk :: rest, evs, writes =>
    match env.get_err tblk.bnr tblk.nbf with
    | some e => Except.error (e, evs.reverse)
    | none =>
      if tblk.has_prepare then
        if tblk.prepare_ret < 0 then
          Except.error (tblk.prepare_ret, (TxnEvent.prepare tblk.bnr :: evs).reverse)
        else
          txn_acquire env rest (TxnEvent.prepare tblk.bnr :: evs)
            (if tblk.nbf &&& NBF_WRITE ≠ 0 then tblk :: writes else writes)
      else
        txn_acquire env rest evs
          (if tblk.nbf &&& NBF_WRITE ≠ 0 then tblk :: writes else writes)

/-- ngnfs_txn_execute from txn.c: acquire and prepare every descriptor;
on any failure return that error (no dirty_begin, no commit); with a
non-empty write list call dirty_begin, propagate its failure, otherwise
run every present commit over the write list in order and finish with
dirty_end. -/
def ngnfs_txn_execute (env : TxnEnv) (blocks : List TxnBlock) : Int × List TxnEvent :=
  match txn_acquire env blocks [] [] with
  | Except.error (e, evs) => (e, evs)
  | Except.ok (evs, writes) =>
    if writes.isEmpty then (0, evs)
    else
      let evs1 := evs ++ [TxnEvent.dirty_begin]
      if env.dirty_begin_ret < 0 then (env.dirty_begin_ret, evs1)
      else
        let commits := (writes.filter (fun t => t.has_commit)).map
          (fun t => TxnEvent.commit t.bnr)
        (0, evs1 ++ commits ++ [TxnEvent.dirty_end])

/-- The acquisition loop logs nothing but prepare calls: no dirty_begin,
no commit, no dirty_end appears in its event list, whichever way it
ends. -/
theorem txn_acquire_evs_prepare (env : TxnEnv) (blocks : List TxnBlock)
    (acc : List TxnEvent) (writes : List TxnBlock)
    (hacc : ∀ ev ∈ acc, ∃ b, ev = TxnEvent.prepare b) :
    (∀ e evs, txn_acquire env blocks acc writes = Except.error (e, evs) →
      ∀ ev ∈ evs, ∃ b, ev = TxnEvent.prepare b) ∧
    (∀ evs ws, txn_acquire env blocks acc writes = Except.ok (evs, ws) →
      ∀ ev ∈ evs, ∃ b, ev = TxnEvent.prepare b) := by
  induction blocks generalizing acc writes with
  | nil =>
    constructor
    · intro e evs h
      cases h
    · intro evs ws h
      rw [txn_acquire] at h
      obtain ⟨rfl, rfl⟩ : acc.reverse = evs ∧ writes.reverse = ws := by
        injection h with h1
        exact ⟨congrArg Prod.fst h1, congrArg Prod.snd h1⟩
      intro ev hev
      exact hacc ev (List.mem_reverse.mp hev)
  | cons tblk rest ih =>
    constructor
    · intro e evs h
      rw [txn_acquire] at h
      cases hg : env.get_err tblk.bnr tblk.nbf with
      | some er =>
        rw [hg] at h
        obtain ⟨rfl, rfl⟩ : er = e ∧ acc.reverse = evs := by
          injection h with h1
          exact ⟨congrArg Prod.fst h1, congrArg Prod.snd h1⟩
        intro ev hev
        exact hacc ev (List.mem_reverse.mp hev)
      | none =>
        rw [hg] at h
        by_cases hp : tblk.has_prepare
        · rw [if_pos hp] at h
          by_cases hneg : tblk.prepare_ret < 0
          · rw [if_pos hneg] at h
            obtain ⟨rfl, rfl⟩ : tblk.prepare_ret = e ∧
                (TxnEvent.prepare tblk.bnr :: acc).reverse = evs := by
              injection h with h1
              exact ⟨congrArg Prod.fst h1, congrArg Prod.snd h1⟩
            intro ev hev
            rcases List.mem_cons.mp (List.mem_reverse.mp hev) with rfl | hev
            · exact ⟨tblk.bnr, rfl⟩
            · exact hacc ev hev
          · rw [if_neg hneg] at h
            refine (ih _ _ ?_).1 e evs h
            intro ev hev
            rcases List.mem_cons.mp hev with rfl | hev
            · exact ⟨tblk.bnr, rfl⟩
            · exact hacc ev hev
        · rw [if_neg hp] at h
          exact (ih _ _ hacc).1 e evs h
    · intro evs ws h
      rw [txn_acquire] at h
      cases hg : env.get_err tblk.bnr tblk.nbf with
      | some er =>
        rw [hg] at h
        cases h
      | none =>
        rw [hg] at h
        by_cases hp : tblk.has_prepare
        · rw [if_pos hp] at h
          by_cases hneg : tblk.prepare_ret < 0
          · rw [if_pos hneg] at h
            cases h
          · rw [if_neg hneg] at h
            refine (ih _ _ ?_).2 evs ws h
            intro ev hev
            rcases List.mem_cons.mp hev with rfl | hev
            · exact ⟨tblk.bnr, rfl⟩
            · exact hacc ev hev
        · rw [if_neg hp] at h
          exact (ih _ _ hacc).2 evs ws h

/-- C7: if any block acquisition or any prepare callback in a
transaction fails, ngnfs_txn_execute returns that negative error with
an event log free of dirty_begin, commit and dirty_end — in particular
no block is marked DIRTY, since dirty_begin is the only call that marks
blocks dirty.  When acquisition succeeds, commits run only after a
dirty_begin that returned success on a non-empty write list, dirty_end
follows all commits, and an empty write list skips all three. -/
theorem C7_txn_execute_contract (env : TxnEnv) (blocks : List TxnBlock) :
    (∀ e evs, txn_acquire env blocks [] [] = Except.error (e, evs) →
      ngnfs_txn_execute env blocks = (e, evs) ∧
        (∀ ev ∈ evs, ∃ b, ev = TxnEvent.prepare b)) ∧
    (∀ evs writes, txn_acquire env blocks [] [] = Except.ok (evs, writes) →
      (∀ ev ∈ evs, ∃ b, ev = TxnEvent.prepare b) ∧
        (writes = [] → ngnfs_txn_execute env blocks = (0, evs)) ∧
        (writes ≠ [] → env.dirty_begin_ret < 0 →
          ngnfs_txn_execute env blocks = (env.dirty_begin_ret, evs ++ [TxnEvent.dirty_begin])) ∧
        (writes ≠ [] → 0 ≤ env.dirty_begin_ret →
          ngnfs_txn_execute env blocks =
            (0, evs ++ TxnEvent.dirty_begin ::
              (((writes.filter (fun t => t.has_commit)).map (fun t => TxnEvent.commit t.bnr)) ++
                [TxnEvent.dirty_end])))) := by
  constructor
  · intro e evs h
    constructor
    · rw [ngnfs_txn_execute, h]
    · exact (txn_acquire_evs_prepare env blocks [] [] (by intro ev hev; cases hev)).1 e evs h
  · intro evs writes h
    refine ⟨(txn_acquire_evs_prepare env blocks [] [] (by intro ev hev; cases hev)).2
      evs writes h, ?_, ?_, ?_⟩
    · intro hw
      rw [ngnfs_txn_execute, h]
      simp [hw]
    · intro hw hret
      simp only [ngnfs_txn_execute, h]
      rw [if_neg (by simpa using hw), if_pos hret]
    · intro hw hret
      simp only [ngnfs_txn_execute, h]
      rw [if_neg (by simpa using hw), if_neg (by omega)]
      simp

/-- Environment of the C7 witness run: every get succeeds and
dirty_begin returns 0. -/
def exC7_env : TxnEnv :=
  { get_err := fun _ _ => none, dirty_begin_ret := 0 }

/-- The write descriptor of the C7 witness run. -/
def exC7_wblock : TxnBlock :=
  { bnr := 7, nbf := NBF_WRITE, has_prepare := true, prepare_ret := 0, has_commit := true }

/-- The read descriptor of the C7 witness run. -/
def exC7_rblock : TxnBlock :=
  { bnr := 9, nbf := NBF_READ, has_prepare := false, prepare_ret := 0, has_commit := false }

/-- Descriptors of the C7 witness run: one write block with prepare and
commit, one read block without callbacks. -/
def exC7_blocks : List TxnBlock :=
  [exC7_wblock, exC7_rblock]

/-- Witness applying C7_txn_execute_contract at the concrete run, whose
acquire phase succeeds with write list [block 7]: the execute log is
prepare, dirty_begin, commit, dirty_end, verified by evaluation. -/
theorem C7_txn_execute_contract_witness :
    ngnfs_txn_execute exC7_env exC7_blocks =
      (0, [TxnEvent.prepare 7, TxnEvent.dirty_begin, TxnEvent.commit 7, TxnEvent.dirty_end]) :=
  ((C7_txn_execute_contract exC7_env exC7_blocks).2
    [TxnEvent.prepare 7] [exC7_wblock] rfl).2.2.2 (by decide) (by decide)
